import Mathlib

/-!
Shallow embedding of `gemini-transcribe` (`src/main.go`) in Lean 4.

The program is a single linear command-line pipeline: parse flags, resolve
the API key, read or transcode the input media file, issue one HTTP POST to
the generative-language API, and print the returned transcription.

All file-system, environment and network effects are represented by an
explicit environment record supplying the outcome of each external call;
the Go functions become pure Lean functions over that environment.
Byte contents of files are modelled as `List Nat`.

Verbose diagnostic lines (printed to stderr only when `-v` is set, lines
142-145 and the `if verbose` prints inside `prepareAudio`) are elided from
the modelled stderr stream: they carry no data flow and no claim refers to
them.  The modelled stderr holds exactly the error prints.
-/

deriving instance DecidableEq for Except

namespace GeminiTranscribe

/-- ASCII lower-casing of one character, as Go `strings.ToLower` acts on
the ASCII range (the claims only concern ASCII extensions; lower-casing of
non-ASCII letters is not modelled). -/
def toLowerChar (c : Char) : Char :=
  if 'A' ≤ c ∧ c ≤ 'Z' then Char.ofNat (c.toNat + 32) else c

/-- Go `strings.ToLower` (ASCII-faithful). -/
def stringsToLower (s : String) : String :=
  String.mk (s.data.map toLowerChar)

/-- Go `unicode.IsSpace` on the Latin-1 range: tab, newline, vertical tab,
form feed, carriage return, space, next-line (U+0085) and no-break space
(U+00A0).  Wider Unicode space classes are not modelled. -/
def isSpaceChar (c : Char) : Bool :=
  c = ' ' ∨ c = '\t' ∨ c = '\n' ∨ c = '\x0b' ∨ c = '\x0c' ∨ c = '\r' ∨
    c.toNat = 0x85 ∨ c.toNat = 0xa0

/-- Go `strings.TrimSpace`: drop leading and trailing white space. -/
def stringsTrimSpace (s : String) : String :=
  String.mk ((((s.data.dropWhile isSpaceChar).reverse.dropWhile isSpaceChar).reverse))

/-- Embeds Go `filepath.Ext`: the suffix of the last path element starting at
its final dot, `""` when the last element has no dot.  The helper scans the
reversed character list, accumulating until it meets a `.` (return the
extension) or a path separator / the start of the string (return `""`). -/
def extOfAux : List Char → List Char → String
  | [], _ => ""
  | c :: rest, acc =>
    if c = '/' then ""
    else if c = '.' then String.mk ('.' :: acc)
    else extOfAux rest (c :: acc)

/-- Go `filepath.Ext` on a Unix path. -/
def filepathExt (p : String) : String :=
  extOfAux p.data.reverse []

/-- The `mimeTypes` table of `getMimeType` (src/main.go lines 244-256),
as an association list in source order. -/
def mimeTypes : List (String × String) :=
  [(".mp3",  "audio/mpeg"),
   (".wav",  "audio/wav"),
   (".ogg",  "audio/ogg"),
   (".flac", "audio/flac"),
   (".m4a",  "audio/mp4"),
   (".aac",  "audio/aac"),
   (".mp4",  "video/mp4"),
   (".webm", "video/webm"),
   (".mov",  "video/quicktime"),
   (".avi",  "video/x-msvideo"),
   (".mkv",  "video/x-matroska")]

/-- Embeds `getMimeType` (src/main.go lines 243-261): exact (case-sensitive)
map lookup of the extension, `application/octet-stream` when absent. -/
def getMimeType (ext : String) : String :=
  match mimeTypes.lookup ext with
  | some mime => mime
  | none => "application/octet-stream"

/-- The keys of the `mimeTypes` table. -/
def mimeTypeKeys : List String := mimeTypes.map Prod.fst

/-- The extension-to-MIME mapping as the program uses it: `prepareAudio`
lower-cases the extension (src/main.go line 169) before any call to
`getMimeType`. -/
def mimeOfExt (ext : String) : String :=
  getMimeType (stringsToLower ext)

/-- The `audioExts` set of `prepareAudio` (src/main.go lines 186-189):
audio formats accepted directly. -/
def audioExts : List String :=
  [".mp3", ".wav", ".ogg", ".flac", ".m4a", ".aac"]

/-- Outcomes of the external calls `prepareAudio` makes.  `fileBytes` is
`os.ReadFile(inputFile)`; `statSize` is `some size` when `os.Stat` returned
`err == nil`, `none` otherwise; `tmpCreate` is `os.CreateTemp`; `ffmpegRun`
is `cmd.Run()` with the error text and captured stderr already combined into
one string; `tmpBytes` is `os.ReadFile(tmpPath)` after the conversion. -/
structure FsEnv where
  ffmpegAvailable : Bool
  fileBytes : Except String (List Nat)
  statSize : Option Int
  tmpCreate : Except String Unit
  ffmpegRun : Except String Unit
  tmpBytes : Except String (List Nat)
deriving Repr

/-- The ffmpeg conversion tail of `prepareAudio` (src/main.go lines 203-240):
create a temp file, run ffmpeg, read the converted bytes; the result is
always sent as `audio/mpeg`. -/
def convertToMp3 (env : FsEnv) : Except String (List Nat × String) :=
  match env.tmpCreate with
  | .error e => .error e
  | .ok _ =>
    match env.ffmpegRun with
    | .error e => .error ("ffmpeg failed: " ++ e)
    | .ok _ =>
      match env.tmpBytes with
      | .error e => .error e
      | .ok data => .ok (data, "audio/mpeg")

/-- True exactly when `prepareAudio` takes its direct-read branch for a
recognized audio extension: `os.Stat` succeeded and the size is strictly
under 20*1024*1024 bytes (src/main.go line 194). -/
def statUnderLimit (env : FsEnv) : Bool :=
  match env.statSize with
  | some n => n < 20 * 1024 * 1024
  | none => false

/-- Embeds `prepareAudio` (src/main.go lines 168-241).  Without ffmpeg the
file is read directly with its extension's MIME type.  With ffmpeg, a
recognized audio extension whose stat size is under 20MB is read directly;
everything else is converted to mp3.  A failing direct read returns its
error (it does not fall through to conversion). -/
def prepareAudio (env : FsEnv) (inputFile : String) : Except String (List Nat × String) :=
  let ext := stringsToLower (filepathExt inputFile)
  if env.ffmpegAvailable = false then
    match env.fileBytes with
    | .error e => .error e
    | .ok data => .ok (data, getMimeType ext)
  else if audioExts.contains ext && statUnderLimit env then
    match env.fileBytes with
    | .error e => .error e
    | .ok data => .ok (data, getMimeType ext)
  else
    convertToMp3 env

/-- The two possible origins of the payload bytes. -/
inductive AudioSource where
  | direct
  | transcoded
deriving Repr, DecidableEq

/-- Which branch of `prepareAudio` supplies the payload: the same branch
conditions as `prepareAudio` itself (src/main.go lines 172, 192-201). -/
def prepareAudioSource (env : FsEnv) (inputFile : String) : AudioSource :=
  let ext := stringsToLower (filepathExt inputFile)
  if env.ffmpegAvailable = false then .direct
  else if audioExts.contains ext && statUnderLimit env then .direct
  else .transcoded

/-- One element of `GeminiResponse.Candidates[i].Content.Parts`
(src/main.go lines 44-46). -/
structure RespPart where
  text : String
deriving Repr, DecidableEq

/-- One element of `GeminiResponse.Candidates` (src/main.go lines 42-48);
the intermediate `Content` wrapper is flattened into its only field. -/
structure Candidate where
  parts : List RespPart
deriving Repr, DecidableEq

/-- The `Error` object of `GeminiResponse` (src/main.go lines 49-52). -/
structure GeminiError where
  message : String
  code : Int
deriving Repr, DecidableEq

/-- The parsed API response (src/main.go lines 41-53). -/
structure GeminiResponse where
  candidates : List Candidate
  error : Option GeminiError
deriving Repr, DecidableEq

/-- Outcome of the single `http.Post` of `transcribe` and the subsequent
body read and parse: transport failure (line 289), body-read failure
(line 295), JSON-parse failure (line 301), or a parsed response. -/
inductive PostResult where
  | failure (msg : String)
  | readFailure (msg : String)
  | parseFailure (msg : String) (body : String)
  | response (r : GeminiResponse)
deriving Repr, DecidableEq

/-- Whether an HTTP response was received at all: every outcome except a
transport failure of `http.Post` itself. -/
def postDelivered : PostResult → Bool
  | .failure _ => false
  | _ => true

/-- Embeds the response handling of `transcribe` (src/main.go lines
289-314): propagate transport/read errors, wrap parse errors, report an
API error object as `API error (code): message`, report an empty
candidate/part list, and otherwise return the whitespace-trimmed text of
the first part of the first candidate (`strings.TrimSpace`, modelled by
`stringsTrimSpace`). -/
def transcribeResult : PostResult → Except String String
  | .failure m => .error m
  | .readFailure m => .error m
  | .parseFailure m body => .error ("failed to parse response: " ++ m ++ "\nBody: " ++ body)
  | .response r =>
    match r.error with
    | some e => .error ("API error (" ++ toString e.code ++ "): " ++ e.message)
    | none =>
      match r.candidates with
      | [] => .error "no transcription in response"
      | c :: _ =>
        match c.parts with
        | [] => .error "no transcription in response"
        | p :: _ => .ok (stringsTrimSpace p.text)

/-- The lower-case hex digit for `n < 16`, as Go's `encoding/json` uses:
`0`-`9` then `a`-`f`. -/
def hexDigit (n : Nat) : Char :=
  if n < 10 then Char.ofNat (48 + n) else Char.ofNat (87 + n)

/-- Go `encoding/json` string escaping (HTML escaping on, as in
`json.MarshalIndent`): quote, backslash, newline, carriage return and tab
get two-character escapes; other control characters become `\u00XX`;
`<`, `>`, `&` and U+2028/U+2029 become `\uXXXX`; all else is literal. -/
def escapeChar (c : Char) : List Char :=
  if c = '"' then ['\\', '"']
  else if c = '\\' then ['\\', '\\']
  else if c = '\n' then ['\\', 'n']
  else if c = '\r' then ['\\', 'r']
  else if c = '\t' then ['\\', 't']
  else if c.toNat < 32 then
    ['\\', 'u', '0', '0', hexDigit (c.toNat / 16), hexDigit (c.toNat % 16)]
  else if c = '<' then ['\\', 'u', '0', '0', '3', 'c']
  else if c = '>' then ['\\', 'u', '0', '0', '3', 'e']
  else if c = '&' then ['\\', 'u', '0', '0', '2', '6']
  else if c.toNat = 0x2028 then ['\\', 'u', '2', '0', '2', '8']
  else if c.toNat = 0x2029 then ['\\', 'u', '2', '0', '2', '9']
  else [c]

/-- A Go JSON string literal for `s`. -/
def jsonQuote (s : String) : String :=
  "\"" ++ String.mk (s.data.flatMap escapeChar) ++ "\""

/-- Embeds the `--json` output (src/main.go lines 155-162):
`json.MarshalIndent` of the map with keys `transcription`, `model`,
`file`, indent two spaces; Go serializes map keys in sorted order
(`file`, `model`, `transcription`). -/
def marshalIndentResult (file model transcription : String) : String :=
  "\x7b\n  " ++ jsonQuote "file" ++ ": " ++ jsonQuote file ++
  ",\n  " ++ jsonQuote "model" ++ ": " ++ jsonQuote model ++
  ",\n  " ++ jsonQuote "transcription" ++ ": " ++ jsonQuote transcription ++
  "\n\x7d"

/-- Environment of one run of `main`: parsed flag values (defaults already
applied by the flag package), environment variables (`""` when unset, as
`os.Getenv` reports), whether `os.UserHomeDir` succeeded, the contents of
`~/.config/gemini/api_key` when readable, whether the input file exists
(`os.Stat` / `os.IsNotExist`, line 130), the file-system environment of
`prepareAudio`, and the outcome of the single HTTP POST. -/
structure MainEnv where
  flagKey : String
  envKey : String
  homeOk : Bool
  keyFileContents : Option String
  flagBaseURL : String
  envBaseURL : String
  flagInput : String
  flagModel : String
  flagPrompt : String
  outputJSON : Bool
  verbose : Bool
  inputExists : Bool
  fs : FsEnv
  post : PostResult
deriving Repr

/-- Embeds the API-key resolution of `main` (src/main.go lines 95-107):
the `-k` (`--key`) flag, else `GEMINI_API_KEY`, else the whitespace-trimmed
config-file contents (only when the home directory and the read succeed),
else `""`. -/
def resolveAPIKey (env : MainEnv) : String :=
  let k := env.flagKey
  let k := if k = "" then env.envKey else k
  if k = "" then
    if env.homeOk then
      match env.keyFileContents with
      | some data => stringsTrimSpace data
      | none => ""
    else ""
  else k

/-- `defaultBaseURL` (src/main.go line 19). -/
def defaultBaseURL : String := "https://generativelanguage.googleapis.com"

/-- Embeds the base-URL resolution of `main` (src/main.go lines 113-121):
flag, else `GEMINI_BASE_URL`, else the default; one trailing `/` removed
(`strings.TrimSuffix`). -/
def resolveBaseURL (env : MainEnv) : String :=
  let b := env.flagBaseURL
  let b := if b = "" then env.envBaseURL else b
  let b := if b = "" then defaultBaseURL else b
  if b.endsWith "/" then b.dropRight 1 else b

/-- The URL of the single POST (`apiURLTemplate`, src/main.go lines 20,
288). -/
def requestURL (env : MainEnv) : String :=
  resolveBaseURL env ++ "/v1beta/models/" ++ env.flagModel ++
  ":generateContent?key=" ++ resolveAPIKey env

/-- Observable pipeline events of one run, in the model's trace. -/
inductive Ev where
  | flagsParsed
  | keyResolved
  | fileChecked
  | audioPrepared
  | httpRequest
  | httpResponse
  | printStdout
deriving Repr, DecidableEq

/-- Observable outcome of one run: the lines printed to stdout, the error
lines printed to stderr, the exit code (0 on success, 1 on every failure),
and the event trace. -/
structure RunResult where
  stdout : List String
  stderr : List String
  exitCode : Nat
  trace : List Ev
deriving Repr, DecidableEq

/-- The error line printed when no API key can be resolved
(src/main.go line 109). -/
def keyErrMsg : String :=
  "Error: API key required. Use -k flag, set GEMINI_API_KEY, or store in ~/.config/gemini/api_key"

/-- Trace of a run that reached the single HTTP POST: the response event is
present exactly when a response was received. -/
def postTrace (env : MainEnv) : List Ev :=
  [.flagsParsed, .keyResolved, .fileChecked, .audioPrepared, .httpRequest] ++
    (if postDelivered env.post then [Ev.httpResponse] else [])

/-- The one line printed to stdout on success (src/main.go lines 154-165):
the transcription itself, or the indented JSON object when `--json` is
set. -/
def outLine (env : MainEnv) (transcription : String) : String :=
  if env.outputJSON then marshalIndentResult env.flagInput env.flagModel transcription
  else transcription

/-- Embeds `main` (src/main.go lines 93-166) after flag parsing: resolve
the key (exit 1 when empty), validate the input flag and the file's
existence (exit 1 otherwise; the usage text printed alongside the missing
`-i` error is elided), prepare the audio, issue the single POST inside
`transcribe`, and print the transcription to stdout — plainly, or as the
indented JSON object when `--json` is set.  Every failure prints one error
line to stderr, prints nothing to stdout, and exits 1. -/
def runMain (env : MainEnv) : RunResult :=
  if resolveAPIKey env = "" then
    ⟨[], [keyErrMsg], 1, [.flagsParsed]⟩
  else if env.flagInput = "" then
    ⟨[], ["Error: Input file required. Use -i flag"], 1, [.flagsParsed, .keyResolved]⟩
  else if env.inputExists = false then
    ⟨[], ["Error: File not found: " ++ env.flagInput], 1, [.flagsParsed, .keyResolved]⟩
  else
    match prepareAudio env.fs env.flagInput with
    | .error e =>
      ⟨[], ["Error preparing audio: " ++ e], 1, [.flagsParsed, .keyResolved, .fileChecked]⟩
    | .ok _ =>
      match transcribeResult env.post with
      | .error e =>
        ⟨[], ["Error transcribing: " ++ e], 1, postTrace env⟩
      | .ok transcription =>
        ⟨[outLine env transcription], [], 0, postTrace env ++ [.printStdout]⟩

/-- The run gets as far as the HTTP POST: key resolved, input flag given,
input file exists, audio preparation succeeded. -/
def reachesPost (env : MainEnv) : Prop :=
  resolveAPIKey env ≠ "" ∧ env.flagInput ≠ "" ∧ env.inputExists = true ∧
    ∃ d m, prepareAudio env.fs env.flagInput = .ok (d, m)

/-- The canonical pipeline order of events; every run's trace is a sublist
of it. -/
def pipelineOrder : List Ev :=
  [.flagsParsed, .keyResolved, .fileChecked, .audioPrepared, .httpRequest,
   .httpResponse, .printStdout]

/-- The text of the first part of the first candidate of a parsed
response, before any trimming; `none` when there is no such part. -/
def firstPartText : PostResult → Option String
  | .response r =>
    match r.candidates with
    | [] => none
    | c :: _ =>
      match c.parts with
      | [] => none
      | p :: _ => some p.text
  | _ => none

/-- Witness environment: key only in the config file, surrounded by white
space.  Field order: flagKey, envKey, homeOk, keyFileContents, flagBaseURL,
envBaseURL, flagInput, flagModel, flagPrompt, outputJSON, verbose,
inputExists, fs, post. -/
def c8CfgEnv : MainEnv :=
  ⟨"", "", true, some "  secret\n", "", "", "a.mp3", "m", "p", false, false, true,
   ⟨true, .ok [1], some 5, .ok (), .ok (), .ok [2]⟩, .failure "unreachable"⟩

/-- Witness environment: no key anywhere. -/
def c8NoneEnv : MainEnv :=
  ⟨"", "", false, none, "", "", "a.mp3", "m", "p", false, false, true,
   ⟨true, .ok [1], some 5, .ok (), .ok (), .ok [2]⟩, .failure "unreachable"⟩

/-- Witness file-system environment: ffmpeg present, small readable mp3. -/
def c5Fs : FsEnv := ⟨true, .ok [1, 2], some 5, .ok (), .ok (), .ok [9]⟩

/-- Witness file-system environment: a 25MB recognized audio file. -/
def c9BigFs : FsEnv :=
  ⟨true, .ok [1], some (25 * 1024 * 1024), .ok (), .ok (), .ok [9]⟩

/-- Witness file-system environment: a 5-byte recognized audio file. -/
def c9SmallFs : FsEnv := ⟨true, .ok [1], some 5, .ok (), .ok (), .ok [9]⟩

/-- Counterexample/witness environment: a fully successful run whose
response text ` hello ` carries surrounding white space. -/
def c1Env : MainEnv :=
  ⟨"KEY", "", true, none, "", "", "a.mp3", "gemini-2.5-flash", "p", false, false, true,
   ⟨true, .ok [1, 2, 3], some 100, .ok (), .ok (), .ok [9, 9]⟩,
   .response ⟨[⟨[⟨" hello "⟩]⟩], none⟩⟩

/-- Witness environment: the single POST fails at the transport level. -/
def c2Env : MainEnv :=
  ⟨"K", "", false, none, "", "", "a.mp3", "m", "p", false, false, true,
   ⟨true, .ok [1], some 5, .ok (), .ok (), .ok [2]⟩, .failure "connection refused"⟩

/-- Witness environment: the response body carries an API error object. -/
def c3Env : MainEnv :=
  ⟨"K", "", false, none, "", "", "a.mp3", "m", "p", false, false, true,
   ⟨true, .ok [1], some 5, .ok (), .ok (), .ok [2]⟩,
   .response ⟨[], some ⟨"quota exceeded", 429⟩⟩⟩

/-- Counterexample environment: the key is missing, so the run stops before
any request is issued. -/
def c4FailEnv : MainEnv :=
  ⟨"", "", false, none, "", "", "a.mp3", "m", "p", false, false, true,
   ⟨true, .ok [1], some 5, .ok (), .ok (), .ok [2]⟩,
   .response ⟨[⟨[⟨"hi"⟩]⟩], none⟩⟩

/-- Witness environment: a successful run over a wav file. -/
def c4OkEnv : MainEnv :=
  ⟨"K", "", false, none, "", "", "b.wav", "m", "p", false, false, true,
   ⟨true, .ok [4], some 7, .ok (), .ok (), .ok [5]⟩,
   .response ⟨[⟨[⟨"ok"⟩]⟩], none⟩⟩

/-- Witness environment: a successful run used to exercise the pipeline
ordering. -/
def c6Env : MainEnv :=
  ⟨"K", "", false, none, "", "", "c.ogg", "m", "p", true, false, true,
   ⟨true, .ok [8], some 9, .ok (), .ok (), .ok [6]⟩,
   .response ⟨[⟨[⟨"text"⟩]⟩], none⟩⟩

/-- Exhaustive description of `runMain`: every run ends in exactly one of
the six leaves of the pipeline — missing key, missing input flag, missing
input file, audio-preparation failure, transcription failure, or
success. -/
lemma runMain_cases (env : MainEnv) :
    (resolveAPIKey env = "" ∧
      runMain env = ⟨[], [keyErrMsg], 1, [.flagsParsed]⟩) ∨
    (resolveAPIKey env ≠ "" ∧ env.flagInput = "" ∧
      runMain env = ⟨[], ["Error: Input file required. Use -i flag"], 1,
        [.flagsParsed, .keyResolved]⟩) ∨
    (resolveAPIKey env ≠ "" ∧ env.flagInput ≠ "" ∧ env.inputExists = false ∧
      runMain env = ⟨[], ["Error: File not found: " ++ env.flagInput], 1,
        [.flagsParsed, .keyResolved]⟩) ∨
    (resolveAPIKey env ≠ "" ∧ env.flagInput ≠ "" ∧ env.inputExists = true ∧
      ∃ e, prepareAudio env.fs env.flagInput = .error e ∧
        runMain env = ⟨[], ["Error preparing audio: " ++ e], 1,
          [.flagsParsed, .keyResolved, .fileChecked]⟩) ∨
    (resolveAPIKey env ≠ "" ∧ env.flagInput ≠ "" ∧ env.inputExists = true ∧
      (∃ d m, prepareAudio env.fs env.flagInput = .ok (d, m)) ∧
      ∃ e, transcribeResult env.post = .error e ∧
        runMain env = ⟨[], ["Error transcribing: " ++ e], 1, postTrace env⟩) ∨
    (resolveAPIKey env ≠ "" ∧ env.flagInput ≠ "" ∧ env.inputExists = true ∧
      (∃ d m, prepareAudio env.fs env.flagInput = .ok (d, m)) ∧
      ∃ t, transcribeResult env.post = .ok t ∧
        runMain env = ⟨[outLine env t], [], 0, postTrace env ++ [.printStdout]⟩) := by
  by_cases h1 : resolveAPIKey env = ""
  · exact Or.inl ⟨h1, by simp [runMain, h1]⟩
  · right
    by_cases h2 : env.flagInput = ""
    · exact Or.inl ⟨h1, h2, by simp [runMain, h1, h2]⟩
    · right
      by_cases h3 : env.inputExists = false
      · exact Or.inl ⟨h1, h2, h3, by simp [runMain, h1, h2, h3]⟩
      · right
        have h3' : env.inputExists = true := by
          cases h : env.inputExists
          · exact absurd h h3
          · rfl
        cases hp : prepareAudio env.fs env.flagInput with
        | error e =>
          exact Or.inl ⟨h1, h2, h3', e, rfl, by simp [runMain, h1, h2, h3', hp]⟩
        | ok v =>
          right
          obtain ⟨d, m⟩ := v
          cases ht : transcribeResult env.post with
          | error e =>
            exact Or.inl ⟨h1, h2, h3', ⟨d, m, rfl⟩, e, rfl,
              by simp [runMain, h1, h2, h3', hp, ht]⟩
          | ok t =>
            exact Or.inr ⟨h1, h2, h3', ⟨d, m, rfl⟩, t, rfl,
              by simp [runMain, h1, h2, h3', hp, ht]⟩

/-- A successful `transcribeResult` means a response was actually
delivered (every transport failure yields an error). -/
lemma postDelivered_of_ok {p : PostResult} {t : String}
    (h : transcribeResult p = .ok t) : postDelivered p = true := by
  cases p <;> simp [postDelivered, transcribeResult] at *

/-- A false boolean equality test from a propositional disequality. -/
lemma beqFalseOfNe {α : Type} [BEq α] [LawfulBEq α] {a b : α} (h : ¬a = b) :
    (a == b) = false := by
  cases hbe : a == b
  · rfl
  · exact absurd (eq_of_beq hbe) h

/-- A successful conversion returns exactly the bytes read back from the
temp file, always tagged `audio/mpeg`. -/
lemma convertToMp3_ok : ∀ env d m, convertToMp3 env = .ok (d, m) →
    env.tmpBytes = .ok d ∧ m = "audio/mpeg" := by
  intro env d m h
  unfold convertToMp3 at h
  cases h1 : env.tmpCreate with
  | error e =>
    rw [h1] at h
    simp at h
  | ok u =>
    rw [h1] at h
    cases h2 : env.ffmpegRun with
    | error e =>
      rw [h2] at h
      simp at h
    | ok u2 =>
      rw [h2] at h
      cases h3 : env.tmpBytes with
      | error e =>
        rw [h3] at h
        simp at h
      | ok data =>
        rw [h3] at h
        simp at h
        exact ⟨by rw [h.1], h.2.symm⟩

/-- C10 — counterexample to the claim as stated: `getMimeType` itself
compares the extension case-sensitively, so two extensions equal up to
case map to different MIME types; `.MP3` falls to the default. -/
theorem getMimeType_case_sensitive_counterexample :
    getMimeType ".MP3" ≠ getMimeType ".mp3" ∧
    stringsToLower ".MP3" = stringsToLower ".mp3" ∧
    getMimeType ".MP3" = "application/octet-stream" := by decide

/-- C10 (amended) — `getMimeType` is a total function of the extension
string: it maps every key of its fixed table to that table's MIME type and
every other string to `application/octet-stream`; the caller lower-cases
the extension first (line 169), so the extension-to-MIME mapping the
program uses (`mimeOfExt`) is case-insensitive. -/
theorem getMimeType_table_total :
    (∀ kv ∈ mimeTypes, getMimeType kv.1 = kv.2) ∧
    (∀ ext, ext ∉ mimeTypeKeys → getMimeType ext = "application/octet-stream") ∧
    (∀ e1 e2, stringsToLower e1 = stringsToLower e2 → mimeOfExt e1 = mimeOfExt e2) := by
  refine ⟨by decide, ?_, ?_⟩
  · intro ext hext
    simp only [mimeTypeKeys, mimeTypes, List.map_cons, List.map_nil, List.mem_cons,
      List.not_mem_nil, not_or] at hext
    obtain ⟨n1, n2, n3, n4, n5, n6, n7, n8, n9, n10, n11, -⟩ := hext
    simp [getMimeType, mimeTypes, List.lookup, beqFalseOfNe n1, beqFalseOfNe n2,
      beqFalseOfNe n3, beqFalseOfNe n4, beqFalseOfNe n5, beqFalseOfNe n6,
      beqFalseOfNe n7, beqFalseOfNe n8, beqFalseOfNe n9, beqFalseOfNe n10,
      beqFalseOfNe n11]
  · intro e1 e2 h
    simp [mimeOfExt, h]

/-- C10 — witness: the amended theorem applied to a table key, a foreign
extension, and a pair of extensions equal up to case. -/
theorem getMimeType_table_total_witness :
    getMimeType ".flac" = "audio/flac" ∧
    getMimeType ".xyz" = "application/octet-stream" ∧
    mimeOfExt ".MP3" = mimeOfExt ".mp3" :=
  ⟨getMimeType_table_total.1 (".flac", "audio/flac") (by decide),
   getMimeType_table_total.2.1 ".xyz" (by decide),
   getMimeType_table_total.2.2 ".MP3" ".mp3" (by decide)⟩

/-- C8 — the API key is resolved flag-first, then environment variable,
then the whitespace-trimmed config-file contents; when all three are empty
or absent the run exits 1 with the key error on stderr, prints nothing to
stdout, and issues no HTTP request. -/
theorem api_key_resolution_order (env : MainEnv) (data : String) :
    (env.flagKey ≠ "" → resolveAPIKey env = env.flagKey) ∧
    (env.flagKey = "" → env.envKey ≠ "" → resolveAPIKey env = env.envKey) ∧
    (env.flagKey = "" → env.envKey = "" → env.homeOk = true →
      env.keyFileContents = some data → resolveAPIKey env = stringsTrimSpace data) ∧
    (resolveAPIKey env = "" →
      (runMain env).exitCode = 1 ∧ (runMain env).stderr = [keyErrMsg] ∧
      (runMain env).stdout = [] ∧ Ev.httpRequest ∉ (runMain env).trace) := by
  refine ⟨?_, ?_, ?_, ?_⟩
  · intro h
    simp [resolveAPIKey, h]
  · intro h1 h2
    simp [resolveAPIKey, h1, h2]
  · intro h1 h2 h3 h4
    simp [resolveAPIKey, h1, h2, h3, h4]
  · intro h
    refine ⟨by simp [runMain, h], by simp [runMain, h], by simp [runMain, h], ?_⟩
    simp [runMain, h]

/-- C8 — witness: the config-file fallback trims the stored key, and a run
with no key at all exits 1 without a request. -/
theorem api_key_resolution_order_witness :
    resolveAPIKey c8CfgEnv = "secret" ∧
    ((runMain c8NoneEnv).exitCode = 1 ∧ (runMain c8NoneEnv).stderr = [keyErrMsg] ∧
      (runMain c8NoneEnv).stdout = [] ∧ Ev.httpRequest ∉ (runMain c8NoneEnv).trace) :=
  ⟨((api_key_resolution_order c8CfgEnv "  secret\n").2.2.1 rfl rfl rfl rfl).trans (by decide),
   (api_key_resolution_order c8NoneEnv "").2.2.2 (by decide)⟩

/-- C5 — the payload bytes have exactly one origin: the branch taken by
`prepareAudio` is a single value of `AudioSource`, and on success the
returned bytes are the direct file read in the direct branch and the
ffmpeg output in the transcoded branch. -/
theorem payload_single_source (env : FsEnv) (f : String) (d : List Nat) (m : String)
    (h : prepareAudio env f = .ok (d, m)) :
    ((prepareAudioSource env f = .direct ∧ env.fileBytes = .ok d) ∨
      (prepareAudioSource env f = .transcoded ∧ env.tmpBytes = .ok d)) ∧
    ¬(prepareAudioSource env f = .direct ∧ prepareAudioSource env f = .transcoded) := by
  constructor
  · by_cases hff : env.ffmpegAvailable = false
    · left
      refine ⟨by simp [prepareAudioSource, hff], ?_⟩
      simp only [prepareAudio] at h
      rw [if_pos hff] at h
      cases hb : env.fileBytes with
      | error e =>
        rw [hb] at h
        simp at h
      | ok data =>
        rw [hb] at h
        simp at h
        rw [h.1]
    · by_cases hc : (audioExts.contains (stringsToLower (filepathExt f)) &&
          statUnderLimit env) = true
      · left
        refine ⟨?_, ?_⟩
        · simp only [prepareAudioSource]
          rw [if_neg hff, if_pos hc]
        · simp only [prepareAudio] at h
          rw [if_neg hff, if_pos hc] at h
          cases hb : env.fileBytes with
          | error e =>
            rw [hb] at h
            simp at h
          | ok data =>
            rw [hb] at h
            simp at h
            rw [h.1]
      · right
        refine ⟨?_, ?_⟩
        · simp only [prepareAudioSource]
          rw [if_neg hff, if_neg hc]
        · simp only [prepareAudio] at h
          rw [if_neg hff, if_neg hc] at h
          exact (convertToMp3_ok env d m h).1
  · rintro ⟨h1, h2⟩
    rw [h1] at h2
    cases h2

/-- C5 — witness: a small recognized audio file is read directly and the
payload is exactly the file's bytes. -/
theorem payload_single_source_witness :
    ((prepareAudioSource c5Fs "a.mp3" = .direct ∧ c5Fs.fileBytes = .ok [1, 2]) ∨
      (prepareAudioSource c5Fs "a.mp3" = .transcoded ∧ c5Fs.tmpBytes = .ok [1, 2])) ∧
    ¬(prepareAudioSource c5Fs "a.mp3" = .direct ∧
        prepareAudioSource c5Fs "a.mp3" = .transcoded) :=
  payload_single_source c5Fs "a.mp3" [1, 2] "audio/mpeg" (by decide)

/-- C9 — with ffmpeg available: the direct-read branch is taken only for a
recognized audio extension whose stat size is strictly under 20*1024*1024
bytes; a recognized audio file at or above that size, and any file with an
unrecognized extension, goes through the mp3 conversion and any successful
result carries MIME type `audio/mpeg`. -/
theorem audio_direct_read_size_gate (env : FsEnv) (f : String)
    (hff : env.ffmpegAvailable = true) :
    (prepareAudioSource env f = .direct →
      audioExts.contains (stringsToLower (filepathExt f)) = true ∧
      ∃ n, env.statSize = some n ∧ n < 20 * 1024 * 1024) ∧
    (audioExts.contains (stringsToLower (filepathExt f)) = true →
      (∃ n, env.statSize = some n ∧ 20 * 1024 * 1024 ≤ n) →
      prepareAudioSource env f = .transcoded ∧
      ∀ d m, prepareAudio env f = .ok (d, m) → m = "audio/mpeg") ∧
    (audioExts.contains (stringsToLower (filepathExt f)) = false →
      prepareAudioSource env f = .transcoded ∧
      ∀ d m, prepareAudio env f = .ok (d, m) → m = "audio/mpeg") := by
  have hff' : ¬(env.ffmpegAvailable = false) := by simp [hff]
  refine ⟨?_, ?_, ?_⟩
  · intro hdir
    simp only [prepareAudioSource] at hdir
    rw [if_neg hff'] at hdir
    by_cases hc : (audioExts.contains (stringsToLower (filepathExt f)) &&
        statUnderLimit env) = true
    · have hand := hc
      rw [Bool.and_eq_true] at hand
      refine ⟨hand.1, ?_⟩
      have hsu := hand.2
      unfold statUnderLimit at hsu
      cases hs : env.statSize with
      | none =>
        rw [hs] at hsu
        cases hsu
      | some n =>
        rw [hs] at hsu
        exact ⟨n, rfl, of_decide_eq_true hsu⟩
    · rw [if_neg hc] at hdir
      cases hdir
  · rintro hext ⟨n, hs, hn⟩
    have hsu : statUnderLimit env = false := by
      unfold statUnderLimit
      rw [hs]
      exact decide_eq_false (by omega)
    have hc : ¬((audioExts.contains (stringsToLower (filepathExt f)) &&
        statUnderLimit env) = true) := by
      simp [hsu]
    constructor
    · simp only [prepareAudioSource]
      rw [if_neg hff', if_neg hc]
    · intro d m h
      simp only [prepareAudio] at h
      rw [if_neg hff', if_neg hc] at h
      exact (convertToMp3_ok env d m h).2
  · intro hext
    have hc : ¬((audioExts.contains (stringsToLower (filepathExt f)) &&
        statUnderLimit env) = true) := by
      intro hcc
      rw [Bool.and_eq_true, hext] at hcc
      cases hcc.1
    constructor
    · simp only [prepareAudioSource]
      rw [if_neg hff', if_neg hc]
    · intro d m h
      simp only [prepareAudio] at h
      rw [if_neg hff', if_neg hc] at h
      exact (convertToMp3_ok env d m h).2

/-- C9 — witness: a 25MB mp3 is transcoded (and would be tagged
`audio/mpeg`), and a small mp3 is read directly with a size strictly under
the limit. -/
theorem audio_direct_read_size_gate_witness :
    (prepareAudioSource c9BigFs "big.mp3" = .transcoded ∧
      ∀ d m, prepareAudio c9BigFs "big.mp3" = .ok (d, m) → m = "audio/mpeg") ∧
    (audioExts.contains (stringsToLower (filepathExt "small.mp3")) = true ∧
      ∃ n, c9SmallFs.statSize = some n ∧ n < 20 * 1024 * 1024) :=
  ⟨(audio_direct_read_size_gate c9BigFs "big.mp3" rfl).2.1 (by decide)
      ⟨25 * 1024 * 1024, rfl, by decide⟩,
   (audio_direct_read_size_gate c9SmallFs "small.mp3" rfl).1 (by decide)⟩

/-- Concatenation of strings concatenates their character data. -/
lemma string_append_data (a b : String) : (a ++ b).data = a.data ++ b.data := by
  cases a
  cases b
  rfl

/-- String concatenation is associative. -/
lemma string_append_assoc (a b c : String) : a ++ b ++ c = a ++ (b ++ c) := by
  cases a
  cases b
  cases c
  show String.mk _ = String.mk _
  rw [List.append_assoc]

/-- The empty string is a right identity of concatenation. -/
lemma string_append_empty (a : String) : a ++ "" = a := by
  cases a
  show String.mk _ = String.mk _
  rw [List.append_nil]

/-- C1 — counterexample to the claim as stated: the program trims the
returned text before printing, so a response text with surrounding white
space is not printed verbatim. -/
theorem printed_verbatim_counterexample :
    firstPartText c1Env.post = some " hello " ∧
    (runMain c1Env).exitCode = 0 ∧
    (runMain c1Env).stdout = ["hello"] ∧
    ¬((runMain c1Env).stdout = [" hello "]) := by decide

/-- C1 (amended) — for every HTTP response whose body parses with no error
object and at least one candidate with at least one part, a run that
reaches the POST exits 0 and prints exactly the whitespace-trimmed text of
the first part of the first candidate: as a plain line, or wrapped in the
indented JSON object when `--json` is set. -/
theorem printed_output_is_trimmed_first_part (env : MainEnv) (r : GeminiResponse)
    (c : Candidate) (p : RespPart) (hreach : reachesPost env)
    (hpost : env.post = .response r) (herr : r.error = none)
    (hcand : r.candidates.head? = some c) (hpart : c.parts.head? = some p) :
    (runMain env).exitCode = 0 ∧
    (runMain env).stdout =
      [if env.outputJSON then
          marshalIndentResult env.flagInput env.flagModel (stringsTrimSpace p.text)
        else stringsTrimSpace p.text] := by
  obtain ⟨hk, hi, hex, d, m, hpa⟩ := hreach
  have ht : transcribeResult env.post = .ok (stringsTrimSpace p.text) := by
    rw [hpost]
    cases hcs : r.candidates with
    | nil =>
      rw [hcs] at hcand
      cases hcand
    | cons c0 cs =>
      rw [hcs] at hcand
      simp at hcand
      cases hps : c0.parts with
      | nil =>
        rw [← hcand] at hpart
        rw [hps] at hpart
        cases hpart
      | cons p0 ps =>
        rw [← hcand] at hpart
        rw [hps] at hpart
        simp at hpart
        simp [transcribeResult, herr, hcs, hps, hpart]
  constructor
  · simp [runMain, hk, hi, hex, hpa, ht]
  · simp [runMain, hk, hi, hex, hpa, ht, outLine]

/-- C1 — witness: the amended theorem applied to the concrete environment
with response text ` hello `. -/
theorem printed_output_is_trimmed_first_part_witness :
    (runMain c1Env).exitCode = 0 ∧ (runMain c1Env).stdout = ["hello"] := by
  have h := printed_output_is_trimmed_first_part c1Env ⟨[⟨[⟨" hello "⟩]⟩], none⟩
    ⟨[⟨" hello "⟩]⟩ ⟨" hello "⟩
    ⟨by decide, by decide, by decide, [1, 2, 3], "audio/mpeg", by decide⟩ rfl rfl rfl rfl
  exact ⟨h.1, h.2.trans (by decide)⟩

/-- C2 — every failing run (missing key, missing input flag, missing input
file, audio-preparation failure, or any transcription failure: transport,
body-read, parse or API error, or empty candidates) exits 1, prints an
error line to stderr, and prints nothing to stdout. -/
theorem failing_run_exits_nonzero (env : MainEnv)
    (h : resolveAPIKey env = "" ∨ env.flagInput = "" ∨ env.inputExists = false ∨
      (∃ e, prepareAudio env.fs env.flagInput = .error e) ∨
      (∃ e, transcribeResult env.post = .error e)) :
    (runMain env).exitCode = 1 ∧ (runMain env).stdout = [] ∧
    (runMain env).stderr ≠ [] := by
  rcases runMain_cases env with ⟨hk, hr⟩ | ⟨hk, hi, hr⟩ | ⟨hk, hi, hex, hr⟩ |
    ⟨hk, hi, hex, e, hpa, hr⟩ | ⟨hk, hi, hex, hok, e, ht, hr⟩ |
    ⟨hk, hi, hex, ⟨d, m, hpa⟩, t, ht, hr⟩
  · rw [hr]
    exact ⟨rfl, rfl, by simp⟩
  · rw [hr]
    exact ⟨rfl, rfl, by simp⟩
  · rw [hr]
    exact ⟨rfl, rfl, by simp⟩
  · rw [hr]
    exact ⟨rfl, rfl, by simp⟩
  · rw [hr]
    exact ⟨rfl, rfl, by simp⟩
  · rcases h with h | h | h | ⟨e, h⟩ | ⟨e, h⟩
    · exact absurd h hk
    · exact absurd h hi
    · rw [hex] at h
      simp at h
    · rw [hpa] at h
      simp at h
    · rw [ht] at h
      simp at h

/-- C2 — witness: a run whose POST fails at the transport level. -/
theorem failing_run_exits_nonzero_witness :
    (runMain c2Env).exitCode = 1 ∧ (runMain c2Env).stdout = [] ∧
    (runMain c2Env).stderr ≠ [] :=
  failing_run_exits_nonzero c2Env
    (Or.inr (Or.inr (Or.inr (Or.inr ⟨"connection refused", by decide⟩))))

/-- C3 — when the response body carries an error object, the run exits 1,
prints nothing to stdout, and the stderr line is exactly the pass-through
format containing the API's code and message; in particular the message
appears verbatim inside the printed error. -/
theorem api_error_passthrough (env : MainEnv) (r : GeminiResponse) (err : GeminiError)
    (hreach : reachesPost env) (hpost : env.post = .response r)
    (herr : r.error = some err) :
    (runMain env).exitCode = 1 ∧ (runMain env).stdout = [] ∧
    (runMain env).stderr =
      ["Error transcribing: " ++
        ("API error (" ++ toString err.code ++ "): " ++ err.message)] ∧
    ∃ s1 s2, (runMain env).stderr = [s1 ++ err.message ++ s2] := by
  obtain ⟨hk, hi, hex, d, m, hpa⟩ := hreach
  have ht : transcribeResult env.post =
      .error ("API error (" ++ toString err.code ++ "): " ++ err.message) := by
    rw [hpost]
    simp [transcribeResult, herr]
  have hr : runMain env = ⟨[], ["Error transcribing: " ++
      ("API error (" ++ toString err.code ++ "): " ++ err.message)], 1,
      postTrace env⟩ := by
    simp [runMain, hk, hi, hex, hpa, ht]
  rw [hr]
  refine ⟨rfl, rfl, rfl,
    "Error transcribing: " ++ ("API error (" ++ toString err.code ++ "): "), "", ?_⟩
  rw [string_append_empty,
    string_append_assoc "Error transcribing: "
      ("API error (" ++ toString err.code ++ "): ") err.message]

/-- C3 — witness: a concrete API error with code 429 is passed through to
stderr. -/
theorem api_error_passthrough_witness :
    (runMain c3Env).exitCode = 1 ∧ (runMain c3Env).stdout = [] ∧
    (runMain c3Env).stderr = ["Error transcribing: API error (429): quota exceeded"] := by
  have h := api_error_passthrough c3Env ⟨[], some ⟨"quota exceeded", 429⟩⟩
    ⟨"quota exceeded", 429⟩
    ⟨by decide, by decide, by decide, [1], "audio/mpeg", by decide⟩ rfl rfl
  exact ⟨h.1, h.2.1, h.2.2.1.trans (by decide)⟩

/-- C4 — counterexample to the claim as stated: a run that fails before the
transcription step (here: no API key) issues zero HTTP requests, not
exactly one. -/
theorem single_request_counterexample :
    ¬((runMain c4FailEnv).trace.count Ev.httpRequest = 1) ∧
    (runMain c4FailEnv).trace.count Ev.httpRequest = 0 := by decide

/-- C4 (amended) — every run issues at most one HTTP request (never a retry
or a second request), and exactly one whenever the run reaches the
transcription step — in particular whenever anything is printed to
stdout. -/
theorem at_most_one_request (env : MainEnv) :
    (runMain env).trace.count Ev.httpRequest ≤ 1 ∧
    (reachesPost env → (runMain env).trace.count Ev.httpRequest = 1) ∧
    ((runMain env).stdout ≠ [] → (runMain env).trace.count Ev.httpRequest = 1) := by
  have hpt : (postTrace env).count Ev.httpRequest = 1 := by
    unfold postTrace
    cases hpd : postDelivered env.post
    · decide
    · decide
  rcases runMain_cases env with ⟨hk, hr⟩ | ⟨hk, hi, hr⟩ | ⟨hk, hi, hex, hr⟩ |
    ⟨hk, hi, hex, e, hpa, hr⟩ | ⟨hk, hi, hex, hok, e, ht, hr⟩ |
    ⟨hk, hi, hex, hok, t, ht, hr⟩
  · have htr : (runMain env).trace = [Ev.flagsParsed] := by rw [hr]
    have hso : (runMain env).stdout = [] := by rw [hr]
    rw [htr, hso]
    refine ⟨by decide, ?_, by decide⟩
    intro hre
    exact absurd hk hre.1
  · have htr : (runMain env).trace = [Ev.flagsParsed, Ev.keyResolved] := by rw [hr]
    have hso : (runMain env).stdout = [] := by rw [hr]
    rw [htr, hso]
    refine ⟨by decide, ?_, by decide⟩
    intro hre
    exact absurd hi hre.2.1
  · have htr : (runMain env).trace = [Ev.flagsParsed, Ev.keyResolved] := by rw [hr]
    have hso : (runMain env).stdout = [] := by rw [hr]
    rw [htr, hso]
    refine ⟨by decide, ?_, by decide⟩
    intro hre
    rw [hre.2.2.1] at hex
    simp at hex
  · have htr : (runMain env).trace = [Ev.flagsParsed, Ev.keyResolved, Ev.fileChecked] := by
      rw [hr]
    have hso : (runMain env).stdout = [] := by rw [hr]
    rw [htr, hso]
    refine ⟨by decide, ?_, by decide⟩
    intro hre
    obtain ⟨d, m, hok⟩ := hre.2.2.2
    rw [hok] at hpa
    simp at hpa
  · have htr : (runMain env).trace = postTrace env := by rw [hr]
    have hso : (runMain env).stdout = [] := by rw [hr]
    rw [htr, hso]
    exact ⟨le_of_eq hpt, fun _ => hpt, fun h => absurd rfl h⟩
  · have htr : (runMain env).trace = postTrace env ++ [Ev.printStdout] := by rw [hr]
    rw [htr]
    have hcnt : (postTrace env ++ [Ev.printStdout]).count Ev.httpRequest = 1 := by
      rw [List.count_append, hpt]
      decide
    exact ⟨le_of_eq hcnt, fun _ => hcnt, fun _ => hcnt⟩

/-- C4 — witness: a successful run issues exactly one request. -/
theorem at_most_one_request_witness :
    (runMain c4OkEnv).trace.count Ev.httpRequest = 1 :=
  (at_most_one_request c4OkEnv).2.1
    ⟨by decide, by decide, by decide, [4], "audio/wav", by decide⟩

/-- C6 — the pipeline is linear: every run's trace is a sublist of the
canonical order (flags, key, file check, audio, request, response, print),
it starts with flag parsing, any HTTP request is preceded by key resolution
and file validation, and nothing is printed to stdout unless a response was
received. -/
theorem pipeline_order_respected (env : MainEnv) :
    List.Sublist (runMain env).trace pipelineOrder ∧
    (runMain env).trace.head? = some Ev.flagsParsed ∧
    (Ev.httpRequest ∈ (runMain env).trace →
      Ev.keyResolved ∈ (runMain env).trace ∧ Ev.fileChecked ∈ (runMain env).trace) ∧
    (Ev.printStdout ∈ (runMain env).trace → Ev.httpResponse ∈ (runMain env).trace) := by
  rcases runMain_cases env with ⟨hk, hr⟩ | ⟨hk, hi, hr⟩ | ⟨hk, hi, hex, hr⟩ |
    ⟨hk, hi, hex, e, hpa, hr⟩ | ⟨hk, hi, hex, hok, e, ht, hr⟩ |
    ⟨hk, hi, hex, hok, t, ht, hr⟩
  · have htr : (runMain env).trace = [Ev.flagsParsed] := by rw [hr]
    rw [htr]
    decide
  · have htr : (runMain env).trace = [Ev.flagsParsed, Ev.keyResolved] := by rw [hr]
    rw [htr]
    decide
  · have htr : (runMain env).trace = [Ev.flagsParsed, Ev.keyResolved] := by rw [hr]
    rw [htr]
    decide
  · have htr : (runMain env).trace = [Ev.flagsParsed, Ev.keyResolved, Ev.fileChecked] := by
      rw [hr]
    rw [htr]
    decide
  · have htr : (runMain env).trace = postTrace env := by rw [hr]
    rw [htr]
    cases hpd : postDelivered env.post
    · simp only [postTrace, hpd]
      decide
    · simp only [postTrace, hpd]
      decide
  · have hpd := postDelivered_of_ok ht
    have htr : (runMain env).trace = postTrace env ++ [Ev.printStdout] := by rw [hr]
    rw [htr]
    simp only [postTrace, hpd]
    decide

/-- C6 — witness: in a successful run the request is preceded by key and
file validation events and the print by a response event. -/
theorem pipeline_order_respected_witness :
    Ev.keyResolved ∈ (runMain c6Env).trace ∧ Ev.fileChecked ∈ (runMain c6Env).trace ∧
    Ev.httpResponse ∈ (runMain c6Env).trace :=
  ⟨((pipeline_order_respected c6Env).2.2.1 (by decide)).1,
   ((pipeline_order_respected c6Env).2.2.1 (by decide)).2,
   (pipeline_order_respected c6Env).2.2.2 (by decide)⟩

end GeminiTranscribe
